import Mathlib

/-!
Shallow embedding of the xrecovery pallet (src/pallets/xrecovery/src/lib.rs):
an M-of-N social recovery state machine.  Account identifiers are modelled as
`Nat`; block numbers as `Nat` bounded by `blockMax` (the pallet performs
overflow-checked addition on block numbers); balances as `Nat` with the
pallet deposit arithmetic overflow-checked against `balMax`.
The external collaborators (Ledger reserve/unreserve/repatriate, the
frame_system consumer reference counting, and the opaque call dispatcher)
are modelled from the spec as explicit state fields and oracles.
The file is organised as all definitions first, then all theorems.
-/

/-- Account identifiers. -/
abbrev AccountId := Nat

/-- Upper bound of the block-number type (u32), for checked_add. -/
def blockMax : Nat := 2 ^ 32 - 1

/-- Upper bound of the balance type (u128), for checked_mul / checked_add. -/
def balMax : Nat := 2 ^ 128 - 1

/-- Overflow-checked addition on block numbers. -/
def checkedAddBlock (a b : Nat) : Option Nat :=
  if a + b ≤ blockMax then some (a + b) else none

/-- Overflow-checked multiplication on balances. -/
def checkedMulBal (a b : Nat) : Option Nat :=
  if a * b ≤ balMax then some (a * b) else none

/-- Overflow-checked addition on balances. -/
def checkedAddBal (a b : Nat) : Option Nat :=
  if a + b ≤ balMax then some (a + b) else none

/-- An active xrecovery process (struct ActiveRecovery).  The field holding
the vouching friends is called `friends` in the source. -/
structure ActiveRecovery where
  created : Nat
  deposit : Nat
  friends : List AccountId
  deriving Repr, DecidableEq

/-- Configuration for recovering an account (struct RecoveryConfig). -/
structure RecoveryConfig where
  delay_period : Nat
  deposit : Nat
  friends : List AccountId
  threshold : Nat
  deriving Repr, DecidableEq

/-- Host constants supplied through the Config trait. -/
structure Params where
  configDepositBase : Nat
  friendDepositFactor : Nat
  maxFriends : Nat
  recoveryDeposit : Nat
  deriving Repr, DecidableEq

/-- The pallet error enum. -/
inductive Err where
  | NotAllowed
  | ZeroThreshold
  | NotEnoughFriends
  | MaxFriends
  | NotSorted
  | NotRecoverable
  | AlreadyRecoverable
  | AlreadyStarted
  | NotStarted
  | NotFriend
  | DelayPeriod
  | AlreadyVouched
  | Threshold
  | StillActive
  | Overflow
  | AlreadyProxy
  | BadState
  | InsufficientBalance
  deriving Repr, DecidableEq

/-- The full state the pallet operations read and write: the three storage
maps (`Recoverable`, `ActiveRecoveries` with its set of stored keys, and
`Proxy`), the external ledger balances, the frame_system consumer and
provider reference counts, and the current block number. -/
structure State where
  recoverable : AccountId → Option RecoveryConfig
  active : AccountId → AccountId → Option ActiveRecovery
  activeKeys : List (AccountId × AccountId)
  proxy : AccountId → Option AccountId
  free : AccountId → Nat
  reserved : AccountId → Nat
  consumers : AccountId → Nat
  providers : AccountId → Nat
  blockNumber : Nat

/-- Update of a double map at one key pair. -/
def upd2 {V : Type} (f : AccountId → AccountId → V) (k₁ k₂ : AccountId)
    (v : V) : AccountId → AccountId → V :=
  fun a b => if a = k₁ ∧ b = k₂ then v else f a b

/-- Modelled from the spec: the Ledger primitive
`reserve(account, amount) -> Result<(), InsufficientBalance>`; moves `amount`
from free to reserved, failing when the free balance does not cover it. -/
def ledgerReserve (s : State) (who amount : Nat) : Option State :=
  if amount ≤ s.free who then
    some { s with
      free := Function.update s.free who (s.free who - amount),
      reserved := Function.update s.reserved who (s.reserved who + amount) }
  else none

/-- Modelled from the spec: the Ledger primitive `unreserve(account, amount)`;
moves back at most the actually reserved amount, never failing. -/
def ledgerUnreserve (s : State) (who amount : Nat) : State :=
  let actual := min amount (s.reserved who)
  { s with
    free := Function.update s.free who (s.free who + actual),
    reserved := Function.update s.reserved who (s.reserved who - actual) }

/-- Modelled from the spec: the Ledger primitive
`repatriate_reserved(from, to, amount, Free)`; moves at most the actually
reserved amount from the reserved balance of `from` to the free balance of
`to`. -/
def ledgerRepatriate (s : State) (source dest amount : Nat) : State :=
  let actual := min amount (s.reserved source)
  { s with
    reserved := Function.update s.reserved source (s.reserved source - actual),
    free := Function.update s.free dest (s.free dest + actual) }

/-- Modelled from the spec: the identity boundary reference-count
registration `frame_system::inc_consumers`, which fails when the account has
no providers. -/
def incConsumers (s : State) (who : AccountId) : Option State :=
  if s.providers who = 0 then none
  else some { s with
    consumers := Function.update s.consumers who (s.consumers who + 1) }

/-- Modelled from the spec: the best-effort decrement
`frame_system::dec_consumers` (absence of a counter is not an error). -/
def decConsumers (s : State) (who : AccountId) : State :=
  { s with consumers := Function.update s.consumers who (s.consumers who - 1) }

/-- `fn is_sorted_and_unique`: `friends.windows(2).all(|w| w[0] < w[1])`. -/
def is_sorted_and_unique : List AccountId → Bool
  | [] => true
  | [_] => true
  | a :: b :: rest => decide (a < b) && is_sorted_and_unique (b :: rest)

/-- Result of Rust slice binary_search: `Ok(pos)` / `Err(insertion_pos)`. -/
inductive BSearchResult where
  | found : Nat → BSearchResult
  | notFound : Nat → BSearchResult
  deriving Repr, DecidableEq

/-- Loop of Rust core slice `binary_search_by` with an explicit fuel;
`binary_search` supplies enough fuel for the interval to be exhausted. -/
def bsearchAux (xs : List AccountId) (x : AccountId) :
    Nat → Nat → Nat → BSearchResult
  | 0, l, _ => .notFound l
  | fuel + 1, l, r =>
    if l < r then
      let mid := (l + r) / 2
      let p := xs.getD mid x
      if p < x then bsearchAux xs x fuel (mid + 1) r
      else if x < p then bsearchAux xs x fuel l mid
      else .found mid
    else .notFound l

/-- Rust slice `binary_search` on the embedded list. -/
def binary_search (xs : List AccountId) (x : AccountId) : BSearchResult :=
  bsearchAux xs x (xs.length + 1) 0 xs.length

/-- `fn is_friend`: `friends.binary_search(&friend).is_ok()`. -/
def is_friend (friends : List AccountId) (friend : AccountId) : Bool :=
  match binary_search friends friend with
  | .found _ => true
  | .notFound _ => false

/-- Rust `Vec::insert(pos, x)`: insert at index `pos` (the call sites only
ever use a `pos ≤ length` produced by binary search). -/
def insertAt : Nat → AccountId → List AccountId → List AccountId
  | 0, x, xs => x :: xs
  | _ + 1, x, [] => [x]
  | n + 1, x, y :: ys => y :: insertAt n x ys

/-- `as_recovered` output: which identity (if any) the inner call was
dispatched under, and the result the extrinsic itself returns.  The result
of the inner dispatch is received as the oracle argument `dres` below. -/
structure AsRecoveredOut where
  dispatchedAs : Option AccountId
  result : Except Err Unit
  deriving Repr

/-- `fn as_recovered`: check the caller holds a proxy grant equal to
`account`, then dispatch the call under `Signed(account)` and DISCARD the
dispatch result (`let _ = call.dispatch(..)`), returning Ok. -/
def as_recovered (s : State) (who account : AccountId)
    (dres : Except Err Unit) : AsRecoveredOut :=
  match s.proxy who with
  | none => ⟨none, .error .NotAllowed⟩
  | some target =>
    if target = account then
      match dres with
      | _ => ⟨some account, .ok ()⟩
    else ⟨none, .error .NotAllowed⟩

/-- `fn set_recovered` (ROOT): unconditionally insert the proxy entry. -/
def set_recovered (s : State) (lost rescuer : AccountId) : State :=
  { s with proxy := Function.update s.proxy rescuer (some lost) }

/-- `fn create_recovery`. -/
def create_recovery (p : Params) (s : State) (who : AccountId)
    (friends : List AccountId) (threshold : Nat) (delay_period : Nat) :
    Except Err State :=
  if (s.recoverable who).isSome then .error .AlreadyRecoverable
  else if ¬ 1 ≤ threshold then .error .ZeroThreshold
  else if friends.isEmpty then .error .NotEnoughFriends
  else if ¬ threshold ≤ friends.length then .error .NotEnoughFriends
  else if ¬ friends.length ≤ p.maxFriends then .error .MaxFriends
  else if ¬ is_sorted_and_unique friends then .error .NotSorted
  else
    match checkedMulBal p.friendDepositFactor friends.length with
    | none => .error .Overflow
    | some friendDeposit =>
      match checkedAddBal p.configDepositBase friendDeposit with
      | none => .error .Overflow
      | some totalDeposit =>
        match ledgerReserve s who totalDeposit with
        | none => .error .InsufficientBalance
        | some s₁ =>
          .ok { s₁ with
            recoverable := Function.update s₁.recoverable who
              (some ⟨delay_period, totalDeposit, friends, threshold⟩) }

/-- `fn initiate_recovery`. -/
def initiate_recovery (p : Params) (s : State) (who account : AccountId) :
    Except Err State :=
  if ¬ (s.recoverable account).isSome then .error .NotRecoverable
  else if (s.active account who).isSome then .error .AlreadyStarted
  else
    match ledgerReserve s who p.recoveryDeposit with
    | none => .error .InsufficientBalance
    | some s₁ =>
      .ok { s₁ with
        active := upd2 s₁.active account who
          (some ⟨s₁.blockNumber, p.recoveryDeposit, []⟩),
        activeKeys := (account, who) :: s₁.activeKeys }

/-- `fn vouch_recovery`. -/
def vouch_recovery (s : State) (who lost rescuer : AccountId) :
    Except Err State :=
  match s.recoverable lost with
  | none => .error .NotRecoverable
  | some cfg =>
    match s.active lost rescuer with
    | none => .error .NotStarted
    | some ar =>
      if ¬ is_friend cfg.friends who then .error .NotFriend
      else
        match binary_search ar.friends who with
        | .found _ => .error .AlreadyVouched
        | .notFound pos =>
          .ok { s with
            active := upd2 s.active lost rescuer
              (some { ar with friends := insertAt pos who ar.friends }) }

/-- `fn claim_recovery`. -/
def claim_recovery (s : State) (who account : AccountId) :
    Except Err State :=
  match s.recoverable account with
  | none => .error .NotRecoverable
  | some cfg =>
    match s.active account who with
    | none => .error .NotStarted
    | some ar =>
      if (s.proxy who).isSome then .error .AlreadyProxy
      else
        match checkedAddBlock ar.created cfg.delay_period with
        | none => .error .Overflow
        | some recoverableBlock =>
          if ¬ recoverableBlock ≤ s.blockNumber then .error .DelayPeriod
          else if ¬ cfg.threshold ≤ ar.friends.length then .error .Threshold
          else
            match incConsumers s who with
            | none => .error .BadState
            | some s₁ =>
              .ok { s₁ with
                proxy := Function.update s₁.proxy who (some account) }

/-- `fn close_recovery`. -/
def close_recovery (s : State) (who rescuer : AccountId) :
    Except Err State :=
  match s.active who rescuer with
  | none => .error .NotStarted
  | some ar =>
    let s₁ := { s with
      active := upd2 s.active who rescuer none,
      activeKeys := s.activeKeys.filter (fun k => k ≠ (who, rescuer)) }
    .ok (ledgerRepatriate s₁ rescuer who ar.deposit)

/-- `ActiveRecoveries::iter_prefix_values(&who)` reaches exactly the stored
keys whose first component is `who`. -/
def iter_by_protected (s : State) (who : AccountId) :
    List (AccountId × AccountId) :=
  s.activeKeys.filter (fun k => k.1 = who)

/-- `fn remove_recovery`. -/
def remove_recovery (s : State) (who : AccountId) : Except Err State :=
  if ¬ (iter_by_protected s who).isEmpty then .error .StillActive
  else
    match s.recoverable who with
    | none => .error .NotRecoverable
    | some cfg =>
      .ok (ledgerUnreserve
        { s with recoverable := Function.update s.recoverable who none }
        who cfg.deposit)

/-- `fn cancel_recovered`. -/
def cancel_recovered (s : State) (who account : AccountId) :
    Except Err State :=
  if s.proxy who = some account then
    .ok (decConsumers
      { s with proxy := Function.update s.proxy who none } who)
  else .error .NotAllowed

/-- Genesis condition: the three storage maps are empty. -/
def emptyStores (s : State) : Prop :=
  (∀ a, s.recoverable a = none) ∧ (∀ a r, s.active a r = none) ∧
  s.activeKeys = [] ∧ (∀ a, s.proxy a = none)

/-- One successful pallet operation, or an environment step that may change
only the ledger balances, the reference counters and the block number (the
surrounding runtime does all of these outside this pallet). -/
inductive Step (p : Params) : State → State → Prop where
  | create : ∀ s who friends threshold delay s',
      create_recovery p s who friends threshold delay = .ok s' →
      Step p s s'
  | initiate : ∀ s who account s',
      initiate_recovery p s who account = .ok s' → Step p s s'
  | vouch : ∀ s who lost rescuer s',
      vouch_recovery s who lost rescuer = .ok s' → Step p s s'
  | claim : ∀ s who account s',
      claim_recovery s who account = .ok s' → Step p s s'
  | close : ∀ s who rescuer s',
      close_recovery s who rescuer = .ok s' → Step p s s'
  | remove : ∀ s who s',
      remove_recovery s who = .ok s' → Step p s s'
  | setRecovered : ∀ s lost rescuer,
      Step p s (set_recovered s lost rescuer)
  | cancel : ∀ s who account s',
      cancel_recovered s who account = .ok s' → Step p s s'
  | environment : ∀ s f r c pr b,
      Step p s { s with free := f, reserved := r, consumers := c,
                        providers := pr, blockNumber := b }

/-- States reachable from a genesis state by successful operations. -/
inductive Reachable (p : Params) : State → Prop where
  | init : ∀ s, emptyStores s → Reachable p s
  | step : ∀ s s', Reachable p s → Step p s s' → Reachable p s'

/-- The structural invariant: config friends lists are strictly sorted;
every active attempt has a strictly sorted voucher list that is a subset of
the friends of an existing config of the protected account; and the stored
key set mirrors the double map. -/
def StateInv (s : State) : Prop :=
  (∀ a cfg, s.recoverable a = some cfg → cfg.friends.Pairwise (· < ·)) ∧
  (∀ a r ar, s.active a r = some ar →
    ar.friends.Pairwise (· < ·) ∧
    ∃ cfg, s.recoverable a = some cfg ∧ ar.friends ⊆ cfg.friends) ∧
  (∀ k : AccountId × AccountId,
    k ∈ s.activeKeys ↔ (s.active k.1 k.2).isSome)

/-- Host constants for the concrete instances. -/
def p0 : Params := ⟨10, 1, 9, 5⟩

/-- A concrete genesis state (all stores empty). -/
def initState : State where
  recoverable := fun _ => none
  active := fun _ _ => none
  activeKeys := []
  proxy := fun _ => none
  free := fun _ => 100
  reserved := fun _ => 0
  consumers := fun _ => 0
  providers := fun _ => 1
  blockNumber := 0

/-- Concrete config: friends 1 2 3, threshold 2, delay 10, deposit 13. -/
def cfgA : RecoveryConfig := ⟨10, 13, [1, 2, 3], 2⟩

/-- Concrete attempt by rescuer 9 at block 0 with deposit 5, two vouches. -/
def arA : ActiveRecovery := ⟨0, 5, [1, 2]⟩

/-- Concrete state: account 0 configured with `cfgA`, rescuer 9 has the
active attempt `arA`, current block 10. -/
def stA : State where
  recoverable := fun a => if a = 0 then some cfgA else none
  active := fun a r => if a = 0 ∧ r = 9 then some arA else none
  activeKeys := [(0, 9)]
  proxy := fun _ => none
  free := fun _ => 100
  reserved := fun a => if a = 9 then 5 else if a = 0 then 13 else 0
  consumers := fun _ => 0
  providers := fun _ => 1
  blockNumber := 10

/-- State after account 5 creates a config in the concrete genesis state. -/
def chainS1 : State :=
  match create_recovery p0 initState 5 [1, 2, 3] 2 10 with
  | .ok t => t
  | .error _ => initState

/-- State after rescuer 9 initiates recovery of account 5 in `chainS1`. -/
def chainS2 : State :=
  match initiate_recovery p0 chainS1 9 5 with
  | .ok t => t
  | .error _ => chainS1

/-- `stA` with a proxy grant 9 → 0 already in place. -/
def stB : State :=
  { stA with proxy := fun r => if r = 9 then some 0 else none }

/-- Modelled from the spec (C2, the claimed behaviour): dispatch under the
protected identity when the grant matches exactly, and surface the
dispatcher result itself to the caller as opaque pass-through. -/
def as_recovered_specModel (s : State) (who account : AccountId)
    (dres : Except Err Unit) : AsRecoveredOut :=
  match s.proxy who with
  | none => ⟨none, .error .NotAllowed⟩
  | some target =>
    if target = account then ⟨some account, dres⟩
    else ⟨none, .error .NotAllowed⟩

/-- Concrete state after rescuer 9 successfully claims account 0 in `stA`. -/
def claimedA : State :=
  match claim_recovery stA 9 0 with
  | .ok t => t
  | .error _ => stA

@[simp] theorem upd2_same {V : Type} (f : AccountId → AccountId → V)
    (k₁ k₂ : AccountId) (v : V) : upd2 f k₁ k₂ v k₁ k₂ = v := by
  simp [upd2]

theorem upd2_ne {V : Type} (f : AccountId → AccountId → V)
    (k₁ k₂ a b : AccountId) (v : V) (h : ¬(a = k₁ ∧ b = k₂)) :
    upd2 f k₁ k₂ v a b = f a b := by
  simp [upd2, h]

theorem bsearchAux_found_spec (xs : List AccountId) (x : AccountId) :
    ∀ fuel l r, l ≤ r → r ≤ xs.length →
    ∀ pos, bsearchAux xs x fuel l r = .found pos →
    ∃ h : pos < xs.length, xs[pos] = x := by
  intro fuel
  induction fuel with
  | zero => intro l r _ _ pos h; simp [bsearchAux] at h
  | succ fuel ih =>
    intro l r hlr hr pos h
    simp only [bsearchAux] at h
    by_cases hlt : l < r
    · have hmidr : (l + r) / 2 < r := by omega
      have hmidl : l ≤ (l + r) / 2 := by omega
      have hmidlen : (l + r) / 2 < xs.length := by omega
      rw [if_pos hlt] at h
      by_cases h1 : xs.getD ((l + r) / 2) x < x
      · rw [if_pos h1] at h
        exact ih ((l + r) / 2 + 1) r (by omega) hr pos h
      · rw [if_neg h1] at h
        by_cases h2 : x < xs.getD ((l + r) / 2) x
        · rw [if_pos h2] at h
          exact ih l ((l + r) / 2) hmidl (by omega) pos h
        · rw [if_neg h2] at h
          cases h
          refine ⟨hmidlen, ?_⟩
          rw [← List.getD_eq_getElem xs x hmidlen]
          exact le_antisymm (Nat.le_of_not_lt h2) (Nat.le_of_not_lt h1)
    · rw [if_neg hlt] at h
      simp at h

theorem bsearchAux_notFound_spec (xs : List AccountId) (x : AccountId)
    (hs : xs.Pairwise (· < ·)) :
    ∀ fuel l r, l ≤ r → r ≤ xs.length → r - l ≤ fuel →
    (∀ i, i < l → ∀ hi : i < xs.length, xs[i] < x) →
    (∀ i, r ≤ i → ∀ hi : i < xs.length, x < xs[i]) →
    ∀ pos, bsearchAux xs x fuel l r = .notFound pos →
    pos ≤ xs.length ∧ (∀ i, i < pos → ∀ hi : i < xs.length, xs[i] < x) ∧
      (∀ i, pos ≤ i → ∀ hi : i < xs.length, x < xs[i]) := by
  intro fuel
  induction fuel with
  | zero =>
    intro l r hlr hr hfuel hpre hpost pos h
    simp only [bsearchAux] at h
    cases h
    have hlr' : l = r := by omega
    subst hlr'
    exact ⟨by omega, hpre, hpost⟩
  | succ fuel ih =>
    intro l r hlr hr hfuel hpre hpost pos h
    simp only [bsearchAux] at h
    by_cases hlt : l < r
    · have hmidr : (l + r) / 2 < r := by omega
      have hmidl : l ≤ (l + r) / 2 := by omega
      have hmidlen : (l + r) / 2 < xs.length := by omega
      rw [if_pos hlt] at h
      by_cases h1 : xs.getD ((l + r) / 2) x < x
      · rw [if_pos h1] at h
        refine ih ((l + r) / 2 + 1) r (by omega) hr (by omega) ?_ hpost pos h
        intro i hi hilen
        have hmx : xs[(l + r) / 2] < x := by
          rw [← List.getD_eq_getElem xs x hmidlen]; exact h1
        rcases Nat.lt_or_ge i ((l + r) / 2) with hc | hc
        · exact lt_trans
            (List.pairwise_iff_getElem.mp hs i ((l + r) / 2) hilen hmidlen hc)
            hmx
        · have hieq : i = (l + r) / 2 := by omega
          subst hieq
          exact hmx
      · rw [if_neg h1] at h
        by_cases h2 : x < xs.getD ((l + r) / 2) x
        · rw [if_pos h2] at h
          refine ih l ((l + r) / 2) hmidl (by omega) (by omega) hpre ?_ pos h
          intro i hi hilen
          have hxm : x < xs[(l + r) / 2] := by
            rw [← List.getD_eq_getElem xs x hmidlen]; exact h2
          rcases Nat.lt_or_ge ((l + r) / 2) i with hc | hc
          · exact lt_trans hxm
              (List.pairwise_iff_getElem.mp hs ((l + r) / 2) i hmidlen hilen hc)
          · have hieq : i = (l + r) / 2 := by omega
            subst hieq
            exact hxm
        · rw [if_neg h2] at h
          simp at h
    · rw [if_neg hlt] at h
      cases h
      have hlr' : l = r := by omega
      subst hlr'
      exact ⟨by omega, hpre, hpost⟩

theorem binary_search_found_mem (xs : List AccountId) (x : AccountId)
    (pos : Nat) (h : binary_search xs x = .found pos) : x ∈ xs := by
  obtain ⟨hlt, hx⟩ :=
    bsearchAux_found_spec xs x (xs.length + 1) 0 xs.length
      (Nat.zero_le _) le_rfl pos h
  exact hx ▸ List.getElem_mem hlt

theorem binary_search_notFound_spec (xs : List AccountId) (x : AccountId)
    (hs : xs.Pairwise (· < ·)) (pos : Nat)
    (h : binary_search xs x = .notFound pos) :
    pos ≤ xs.length ∧ (∀ i, i < pos → ∀ hi : i < xs.length, xs[i] < x) ∧
      (∀ i, pos ≤ i → ∀ hi : i < xs.length, x < xs[i]) := by
  refine bsearchAux_notFound_spec xs x hs (xs.length + 1) 0 xs.length
    (Nat.zero_le _) le_rfl (by omega) ?_ ?_ pos h
  · intro i hi _; omega
  · intro i hi hilen; omega

theorem mem_insertAt (x a : AccountId) :
    ∀ (n : Nat) (l : List AccountId),
    a ∈ insertAt n x l ↔ a = x ∨ a ∈ l := by
  intro n
  induction n with
  | zero => intro l; simp [insertAt]
  | succ n ih =>
    intro l
    cases l with
    | nil => simp [insertAt]
    | cons y ys =>
      simp only [insertAt, List.mem_cons, ih ys]
      tauto

theorem insertAt_pairwise (x : AccountId) :
    ∀ (l : List AccountId) (n : Nat), l.Pairwise (· < ·) →
    (∀ i, i < n → ∀ hi : i < l.length, l[i] < x) →
    (∀ i, n ≤ i → ∀ hi : i < l.length, x < l[i]) →
    (insertAt n x l).Pairwise (· < ·) := by
  intro l
  induction l with
  | nil =>
    intro n _ _ _
    cases n <;> simp [insertAt]
  | cons y ys ih =>
    intro n hp hpre hpost
    cases n with
    | zero =>
      simp only [insertAt]
      refine List.Pairwise.cons ?_ hp
      intro b hb
      obtain ⟨i, hi, hbi⟩ := List.mem_iff_getElem.mp hb
      exact hbi ▸ hpost i (Nat.zero_le _) hi
    | succ n =>
      simp only [insertAt]
      rcases List.pairwise_cons.mp hp with ⟨hy, hys⟩
      refine List.Pairwise.cons ?_ ?_
      · intro b hb
        rcases (mem_insertAt x b n ys).mp hb with hbx | hbys
        · subst hbx
          exact hpre 0 (Nat.zero_lt_succ _) (by simp)
        · exact hy b hbys
      · refine ih n hys ?_ ?_
        · intro i hi hilen
          have := hpre (i + 1) (by omega) (by simpa using Nat.succ_lt_succ hilen)
          simpa using this
        · intro i hi hilen
          have := hpost (i + 1) (by omega) (by simpa using Nat.succ_lt_succ hilen)
          simpa using this

/-- Inserting at the position returned by a failed binary search keeps the
list strictly sorted. -/
theorem insertAt_binary_search_pairwise (v : List AccountId) (x : AccountId)
    (hs : v.Pairwise (· < ·)) (pos : Nat)
    (h : binary_search v x = .notFound pos) :
    (insertAt pos x v).Pairwise (· < ·) := by
  obtain ⟨_, hpre, hpost⟩ := binary_search_notFound_spec v x hs pos h
  exact insertAt_pairwise x v pos hs hpre hpost

/-- The Bool sortedness check of the source agrees with `List.Pairwise`. -/
theorem is_sorted_and_unique_iff (l : List AccountId) :
    is_sorted_and_unique l = true ↔ l.Pairwise (· < ·) := by
  have hchain : ∀ m : List AccountId,
      is_sorted_and_unique m = true ↔ m.Chain' (· < ·) := by
    intro m
    induction m with
    | nil => simp [is_sorted_and_unique]
    | cons a t iht =>
      cases t with
      | nil => simp [is_sorted_and_unique]
      | cons b u =>
        simp only [is_sorted_and_unique, Bool.and_eq_true, decide_eq_true_eq,
          List.chain'_cons, iht]
  rw [hchain l, List.chain'_iff_pairwise]

/-- `is_friend` implies membership in the friends list. -/
theorem is_friend_mem (friends : List AccountId) (x : AccountId)
    (h : is_friend friends x = true) : x ∈ friends := by
  unfold is_friend at h
  cases hbs : binary_search friends x with
  | found pos => exact binary_search_found_mem friends x pos hbs
  | notFound pos => rw [hbs] at h; simp at h

theorem create_recovery_ok {p : Params} {s : State} {who : AccountId}
    {friends : List AccountId} {threshold delay : Nat} {s' : State}
    (h : create_recovery p s who friends threshold delay = .ok s') :
    s.recoverable who = none ∧ 1 ≤ threshold ∧ friends ≠ [] ∧
    threshold ≤ friends.length ∧ friends.length ≤ p.maxFriends ∧
    is_sorted_and_unique friends = true ∧
    p.friendDepositFactor * friends.length ≤ balMax ∧
    p.configDepositBase + p.friendDepositFactor * friends.length ≤ balMax ∧
    p.configDepositBase + p.friendDepositFactor * friends.length ≤
      s.free who ∧
    s' = { s with
      recoverable := Function.update s.recoverable who
        (some ⟨delay,
          p.configDepositBase + p.friendDepositFactor * friends.length,
          friends, threshold⟩),
      free := Function.update s.free who
        (s.free who -
          (p.configDepositBase + p.friendDepositFactor * friends.length)),
      reserved := Function.update s.reserved who
        (s.reserved who +
          (p.configDepositBase + p.friendDepositFactor * friends.length)) } := by
  by_cases hc1 : (s.recoverable who).isSome
  · simp [create_recovery, hc1] at h
  by_cases hc2 : 1 ≤ threshold
  swap
  · simp [create_recovery, hc1, hc2] at h
  by_cases hc3 : friends.isEmpty
  · simp [create_recovery, hc1, hc2, hc3] at h
  by_cases hc4 : threshold ≤ friends.length
  swap
  · simp [create_recovery, hc1, hc2, hc3, hc4] at h
  by_cases hc5 : friends.length ≤ p.maxFriends
  swap
  · simp [create_recovery, hc1, hc2, hc3, hc4, hc5] at h
  by_cases hc6 : is_sorted_and_unique friends = true
  swap
  · simp [create_recovery, hc1, hc2, hc3, hc4, hc5, hc6] at h
  by_cases hc7 : p.friendDepositFactor * friends.length ≤ balMax
  swap
  · simp [create_recovery, checkedMulBal, hc1, hc2, hc3, hc4, hc5, hc6,
      hc7] at h
  by_cases hc8 : p.configDepositBase +
      p.friendDepositFactor * friends.length ≤ balMax
  swap
  · simp [create_recovery, checkedMulBal, checkedAddBal, hc1, hc2, hc3,
      hc4, hc5, hc6, hc7, hc8] at h
  by_cases hc9 : p.configDepositBase +
      p.friendDepositFactor * friends.length ≤ s.free who
  swap
  · simp [create_recovery, checkedMulBal, checkedAddBal, ledgerReserve,
      hc1, hc2, hc3, hc4, hc5, hc6, hc7, hc8, hc9] at h
  simp only [create_recovery, checkedMulBal, checkedAddBal, ledgerReserve,
    hc1, hc2, hc3, hc4, hc5, hc6, hc7, hc8, hc9] at h
  refine ⟨Option.not_isSome_iff_eq_none.mp hc1, hc2, ?_, hc4, hc5, hc6,
    hc7, hc8, hc9, ?_⟩
  · intro hnil
    rw [hnil] at hc3
    simp at hc3
  · simp [hc8, hc9] at h
    exact h.symm

theorem initiate_recovery_ok {p : Params} {s : State} {who account : AccountId}
    {s' : State} (h : initiate_recovery p s who account = .ok s') :
    (s.recoverable account).isSome ∧ s.active account who = none ∧
    p.recoveryDeposit ≤ s.free who ∧
    s' = { s with
      active := upd2 s.active account who
        (some ⟨s.blockNumber, p.recoveryDeposit, []⟩),
      activeKeys := (account, who) :: s.activeKeys,
      free := Function.update s.free who (s.free who - p.recoveryDeposit),
      reserved := Function.update s.reserved who
        (s.reserved who + p.recoveryDeposit) } := by
  by_cases hc1 : (s.recoverable account).isSome
  swap
  · simp [initiate_recovery, hc1] at h
  by_cases hc2 : (s.active account who).isSome
  · simp [initiate_recovery, hc1, hc2] at h
  by_cases hc3 : p.recoveryDeposit ≤ s.free who
  swap
  · simp [initiate_recovery, ledgerReserve, hc1, hc2, hc3] at h
  simp [initiate_recovery, ledgerReserve, hc1, hc2, hc3] at h
  exact ⟨hc1, Option.not_isSome_iff_eq_none.mp hc2, hc3, h.symm⟩

theorem vouch_recovery_ok {s : State} {who lost rescuer : AccountId}
    {s' : State} (h : vouch_recovery s who lost rescuer = .ok s') :
    ∃ cfg ar pos, s.recoverable lost = some cfg ∧
      s.active lost rescuer = some ar ∧
      is_friend cfg.friends who = true ∧
      binary_search ar.friends who = .notFound pos ∧
      s' = { s with
        active := upd2 s.active lost rescuer
          (some { ar with friends := insertAt pos who ar.friends }) } := by
  cases hcfg : s.recoverable lost with
  | none => simp [vouch_recovery, hcfg] at h
  | some cfg =>
    cases har : s.active lost rescuer with
    | none => simp [vouch_recovery, hcfg, har] at h
    | some ar =>
      by_cases hf : is_friend cfg.friends who = true
      swap
      · simp [vouch_recovery, hcfg, har, hf] at h
      cases hbs : binary_search ar.friends who with
      | found pos => simp [vouch_recovery, hcfg, har, hf, hbs] at h
      | notFound pos =>
        simp only [vouch_recovery, hcfg, har, hf, hbs, if_neg,
          Bool.true_eq_false, not_false_iff, ite_false] at h
        simp at h
        exact ⟨cfg, ar, pos, rfl, rfl, hf, hbs, h.symm⟩

theorem claim_recovery_ok {s : State} {who account : AccountId} {s' : State}
    (h : claim_recovery s who account = .ok s') :
    ∃ cfg ar, s.recoverable account = some cfg ∧
      s.active account who = some ar ∧
      s.proxy who = none ∧
      ar.created + cfg.delay_period ≤ blockMax ∧
      ar.created + cfg.delay_period ≤ s.blockNumber ∧
      cfg.threshold ≤ ar.friends.length ∧
      s.providers who ≠ 0 ∧
      s' = { s with
        consumers := Function.update s.consumers who (s.consumers who + 1),
        proxy := Function.update s.proxy who (some account) } := by
  cases hcfg : s.recoverable account with
  | none => simp [claim_recovery, hcfg] at h
  | some cfg =>
    cases har : s.active account who with
    | none => simp [claim_recovery, hcfg, har] at h
    | some ar =>
      by_cases hpx : (s.proxy who).isSome
      · simp [claim_recovery, hcfg, har, hpx] at h
      by_cases hov : ar.created + cfg.delay_period ≤ blockMax
      swap
      · simp [claim_recovery, checkedAddBlock, hcfg, har, hpx, hov] at h
      by_cases hdel : ar.created + cfg.delay_period ≤ s.blockNumber
      swap
      · simp [claim_recovery, checkedAddBlock, hcfg, har, hpx, hov,
          hdel] at h
      by_cases hth : cfg.threshold ≤ ar.friends.length
      swap
      · simp [claim_recovery, checkedAddBlock, hcfg, har, hpx, hov, hdel,
          hth] at h
      by_cases hpr : s.providers who = 0
      · simp [claim_recovery, checkedAddBlock, incConsumers, hcfg, har,
          hpx, hov, hdel, hth, hpr] at h
      simp [claim_recovery, checkedAddBlock, incConsumers, hcfg, har, hpx,
        hov, hdel, hth, hpr] at h
      exact ⟨cfg, ar, rfl, rfl, Option.not_isSome_iff_eq_none.mp hpx, hov,
        hdel, hth, hpr, h.symm⟩

theorem close_recovery_ok {s : State} {who rescuer : AccountId} {s' : State}
    (h : close_recovery s who rescuer = .ok s') :
    ∃ ar, s.active who rescuer = some ar ∧
      s' = { s with
        active := upd2 s.active who rescuer none,
        activeKeys := s.activeKeys.filter (fun k => k ≠ (who, rescuer)),
        reserved := Function.update s.reserved rescuer
          (s.reserved rescuer - min ar.deposit (s.reserved rescuer)),
        free := Function.update s.free who
          (s.free who + min ar.deposit (s.reserved rescuer)) } := by
  cases har : s.active who rescuer with
  | none => simp [close_recovery, har] at h
  | some ar =>
    simp [close_recovery, ledgerRepatriate, har] at h
    simp only [ne_eq, decide_not]
    exact ⟨ar, rfl, h.symm⟩

theorem remove_recovery_ok {s : State} {who : AccountId}
    {s' : State} (h : remove_recovery s who = .ok s') :
    iter_by_protected s who = [] ∧
    ∃ cfg, s.recoverable who = some cfg ∧
      s' = { s with
        recoverable := Function.update s.recoverable who none,
        free := Function.update s.free who
          (s.free who + min cfg.deposit (s.reserved who)),
        reserved := Function.update s.reserved who
          (s.reserved who - min cfg.deposit (s.reserved who)) } := by
  by_cases hit : (iter_by_protected s who).isEmpty
  swap
  · simp [remove_recovery, hit] at h
  cases hcfg : s.recoverable who with
  | none => simp [remove_recovery, hit, hcfg] at h
  | some cfg =>
    simp [remove_recovery, ledgerUnreserve, hit, hcfg] at h
    exact ⟨List.isEmpty_iff.mp hit, cfg, rfl, h.symm⟩

theorem cancel_recovered_ok {s : State} {who account : AccountId}
    {s' : State} (h : cancel_recovered s who account = .ok s') :
    s.proxy who = some account ∧
    s' = { s with
      proxy := Function.update s.proxy who none,
      consumers := Function.update s.consumers who (s.consumers who - 1) } := by
  by_cases hpx : s.proxy who = some account
  swap
  · simp [cancel_recovered, hpx] at h
  simp [cancel_recovered, decConsumers, hpx] at h
  exact ⟨hpx, h.symm⟩

theorem inv_init {s : State} (h : emptyStores s) : StateInv s := by
  obtain ⟨h1, h2, h3, _⟩ := h
  refine ⟨?_, ?_, ?_⟩
  · intro a cfg hc; rw [h1 a] at hc; cases hc
  · intro a r ar hc; rw [h2 a r] at hc; cases hc
  · intro k; rw [h3, h2 k.1 k.2]; simp

theorem inv_step {p : Params} {s s' : State} (hinv : StateInv s)
    (hstep : Step p s s') : StateInv s' := by
  obtain ⟨hcfg, hatt, hkeys⟩ := hinv
  cases hstep with
  | create who friends threshold delay s2 h =>
    obtain ⟨hnone, _, _, _, _, hsort, _, _, _, hs'⟩ := create_recovery_ok h
    subst hs'
    simp only [StateInv]
    refine ⟨?_, ?_, hkeys⟩
    · intro a cfg hc
      by_cases ha : a = who
      · subst ha
        rw [Function.update_same] at hc
        cases hc
        exact (is_sorted_and_unique_iff friends).mp hsort
      · rw [Function.update_noteq ha] at hc
        exact hcfg a cfg hc
    · intro a r ar hc
      have h2 := hatt a r ar hc
      obtain ⟨hsorted, cfg0, hcfg0, hsub⟩ := h2
      refine ⟨hsorted, cfg0, ?_, hsub⟩
      by_cases ha : a = who
      · subst ha; rw [hnone] at hcfg0; cases hcfg0
      · rw [Function.update_noteq ha]; exact hcfg0
  | initiate who account s2 h =>
    obtain ⟨hrec, hnone, _, hs'⟩ := initiate_recovery_ok h
    subst hs'
    simp only [StateInv]
    obtain ⟨cfg0, hcfg0⟩ := Option.isSome_iff_exists.mp hrec
    refine ⟨hcfg, ?_, ?_⟩
    · intro a r ar hc
      by_cases hk : a = account ∧ r = who
      · obtain ⟨ha, hr⟩ := hk
        subst ha; subst hr
        rw [upd2_same] at hc
        cases hc
        exact ⟨List.Pairwise.nil, cfg0, hcfg0, by simp⟩
      · rw [upd2_ne _ _ _ _ _ _ hk] at hc
        exact hatt a r ar hc
    · intro k
      by_cases hk : k.1 = account ∧ k.2 = who
      · obtain ⟨h1, h2⟩ := hk
        have : k = (account, who) := Prod.ext h1 h2
        subst this
        simp
      · have : k ≠ (account, who) := by
          intro he; subst he; simp at hk
        simp only [List.mem_cons, this, false_or]
        rw [upd2_ne _ _ _ _ _ _ hk]
        exact hkeys k
  | vouch who lost rescuer s2 h =>
    obtain ⟨cfg, ar, pos, hc, ha, hf, hbs, hs'⟩ := vouch_recovery_ok h
    subst hs'
    simp only [StateInv]
    obtain ⟨hsorted, cfg1, hcfg1, hsub⟩ := hatt lost rescuer ar ha
    refine ⟨hcfg, ?_, ?_⟩
    · intro a r ar' hc'
      by_cases hk : a = lost ∧ r = rescuer
      · obtain ⟨h1, h2⟩ := hk
        subst h1; subst h2
        rw [upd2_same] at hc'
        cases hc'
        refine ⟨insertAt_binary_search_pairwise ar.friends who hsorted
          pos hbs, cfg1, hcfg1, ?_⟩
        intro x hx
        rcases (mem_insertAt who x pos ar.friends).mp hx with hxw | hxm
        · subst hxw
          have hceq : cfg1 = cfg := by
            rw [hcfg1] at hc
            exact Option.some_inj.mp hc
          rw [hceq]
          exact is_friend_mem cfg.friends x hf
        · exact hsub hxm
      · rw [upd2_ne _ _ _ _ _ _ hk] at hc'
        exact hatt a r ar' hc'
    · intro k
      rw [hkeys k]
      by_cases hk : k.1 = lost ∧ k.2 = rescuer
      · obtain ⟨h1, h2⟩ := hk
        rw [← h1, ← h2] at ha ⊢
        rw [show upd2 s.active k.1 k.2
          (some { ar with friends := insertAt pos who ar.friends }) k.1 k.2 =
          some { ar with friends := insertAt pos who ar.friends } from
          upd2_same _ _ _ _]
        simp [ha]
      · rw [upd2_ne _ _ _ _ _ _ hk]
  | claim who account s2 h =>
    obtain ⟨cfg, ar, _, _, _, _, _, _, _, hs'⟩ := claim_recovery_ok h
    subst hs'
    simp only [StateInv]
    exact ⟨hcfg, hatt, hkeys⟩
  | close who rescuer s2 h =>
    obtain ⟨ar, ha, hs'⟩ := close_recovery_ok h
    subst hs'
    simp only [StateInv]
    refine ⟨hcfg, ?_, ?_⟩
    · intro a r ar' hc'
      by_cases hk : a = who ∧ r = rescuer
      · obtain ⟨h1, h2⟩ := hk
        subst h1; subst h2
        rw [upd2_same] at hc'
        cases hc'
      · rw [upd2_ne _ _ _ _ _ _ hk] at hc'
        exact hatt a r ar' hc'
    · intro k
      by_cases hk : k.1 = who ∧ k.2 = rescuer
      · obtain ⟨h1, h2⟩ := hk
        have hke : k = (who, rescuer) := Prod.ext h1 h2
        subst hke
        simp [List.mem_filter]
      · have hne : k ≠ (who, rescuer) := by
          intro he; subst he; simp at hk
        rw [upd2_ne _ _ _ _ _ _ hk]
        simp [List.mem_filter, hne, ← hkeys k]
  | remove who s2 h =>
    obtain ⟨hit, cfg, hc, hs'⟩ := remove_recovery_ok h
    subst hs'
    simp only [StateInv]
    have hnoatt : ∀ r, s.active who r = none := by
      intro r
      by_cases hsome : (s.active who r).isSome
      · have hmem : (who, r) ∈ s.activeKeys := (hkeys (who, r)).mpr hsome
        have : (who, r) ∈ iter_by_protected s who := by
          simp [iter_by_protected, List.mem_filter, hmem]
        rw [hit] at this
        cases this
      · exact Option.not_isSome_iff_eq_none.mp hsome
    refine ⟨?_, ?_, hkeys⟩
    · intro a cfg' hc'
      by_cases ha : a = who
      · subst ha; rw [Function.update_same] at hc'; cases hc'
      · rw [Function.update_noteq ha] at hc'
        exact hcfg a cfg' hc'
    · intro a r ar hc'
      obtain ⟨hsorted, cfg1, hcfg1, hsub⟩ := hatt a r ar hc'
      refine ⟨hsorted, cfg1, ?_, hsub⟩
      by_cases ha : a = who
      · subst ha
        rw [hnoatt r] at hc'
        cases hc'
      · rw [Function.update_noteq ha]
        exact hcfg1
  | setRecovered lost rescuer =>
    exact ⟨hcfg, hatt, hkeys⟩
  | cancel who account s2 h =>
    obtain ⟨_, hs'⟩ := cancel_recovered_ok h
    subst hs'
    simp only [StateInv]
    exact ⟨hcfg, hatt, hkeys⟩
  | environment f r c pr b =>
    exact ⟨hcfg, hatt, hkeys⟩

/-- Every reachable state satisfies the structural invariant. -/
theorem inv_of_reachable {p : Params} {s : State} (h : Reachable p s) :
    StateInv s := by
  induction h with
  | init s hs => exact inv_init hs
  | step s s' _ hstep ih => exact inv_step ih hstep

theorem emptyStores_initState : emptyStores initState :=
  ⟨fun _ => rfl, fun _ _ => rfl, rfl, fun _ => rfl⟩

/-- C8: `remove_recovery` fails with `StillActive` whenever the iteration
over active attempts for the caller is non-empty, regardless of the age or
state of any attempt, and (the error aborting before any mutation) leaves
the configuration and all balances unchanged. -/
theorem xrecovery_c8_remove_still_active (s : State) (who : AccountId)
    (h : iter_by_protected s who ≠ []) :
    remove_recovery s who = .error .StillActive := by
  have : ¬ (iter_by_protected s who).isEmpty = true := by
    simpa [List.isEmpty_iff] using h
  simp [remove_recovery, this]

theorem xrecovery_c8_witness :
    iter_by_protected stA 0 ≠ [] ∧
    remove_recovery stA 0 = .error .StillActive :=
  ⟨by decide, xrecovery_c8_remove_still_active stA 0 (by decide)⟩

/-- C7: a successful `claim_recovery` does not delete the ActiveRecoveries
entry for (protected, caller): the whole double map, the stored key set and
all reserved balances are unchanged, and the consumed entry is still
present afterwards, until an explicit `close_recovery`. -/
theorem xrecovery_c7_claim_keeps_attempt (s : State) (who account : AccountId)
    (s' : State) (h : claim_recovery s who account = .ok s') :
    (∀ a r, s'.active a r = s.active a r) ∧
    s'.activeKeys = s.activeKeys ∧
    (s'.active account who).isSome ∧
    (∀ x, s'.reserved x = s.reserved x) := by
  obtain ⟨cfg, ar, hc, ha, _, _, _, _, _, hs'⟩ := claim_recovery_ok h
  subst hs'
  exact ⟨fun a r => rfl, rfl, by simp [ha], fun x => rfl⟩

theorem xrecovery_c7_witness :
    ∃ s', claim_recovery stA 9 0 = .ok s' ∧ (s'.active 0 9).isSome ∧
      s'.reserved 9 = stA.reserved 9 := by
  refine ⟨_, rfl, ?_, ?_⟩
  · exact (xrecovery_c7_claim_keeps_attempt stA 9 0 _ rfl).2.2.1
  · exact (xrecovery_c7_claim_keeps_attempt stA 9 0 _ rfl).2.2.2 9

/-- C9: a successful `create_recovery` followed by a successful
`remove_recovery` with no intervening attempts restores the exact reserved
and free balances of the caller: `remove_recovery` unreserves exactly the
deposit recorded in the config at creation. -/
theorem xrecovery_c9_deposit_roundtrip (p : Params) (s : State)
    (who : AccountId) (friends : List AccountId) (threshold delay : Nat)
    (s₁ s₂ : State)
    (h1 : create_recovery p s who friends threshold delay = .ok s₁)
    (h2 : remove_recovery s₁ who = .ok s₂) :
    s₂.reserved who = s.reserved who ∧ s₂.free who = s.free who ∧
    s₂.recoverable who = none := by
  obtain ⟨_, _, _, _, _, _, _, _, hfree, hs1⟩ := create_recovery_ok h1
  obtain ⟨hit, cfg, hc, hs2⟩ := remove_recovery_ok h2
  subst hs1
  dsimp only at hc
  rw [Function.update_same] at hc
  have hcd : cfg = ⟨delay,
      p.configDepositBase + p.friendDepositFactor * friends.length,
      friends, threshold⟩ := (Option.some_inj.mp hc).symm
  subst hcd
  subst hs2
  dsimp only
  simp only [Function.update_same]
  refine ⟨?_, ?_, ?_⟩
  · omega
  · omega
  · trivial

theorem xrecovery_c9_witness :
    ∃ s₁ s₂, create_recovery p0 initState 5 [1, 2, 3] 2 10 = .ok s₁ ∧
      remove_recovery s₁ 5 = .ok s₂ ∧
      s₂.reserved 5 = initState.reserved 5 ∧
      s₂.free 5 = initState.free 5 := by
  refine ⟨_, _, rfl, rfl, ?_, ?_⟩
  · exact (xrecovery_c9_deposit_roundtrip p0 initState 5 [1, 2, 3] 2 10
      _ _ rfl rfl).1
  · exact (xrecovery_c9_deposit_roundtrip p0 initState 5 [1, 2, 3] 2 10
      _ _ rfl rfl).2.1

/-- C4: in every reachable state, the friends list of every stored config is
strictly increasing, and the voucher list of every stored active attempt is
strictly increasing and a subset of the friends of the corresponding config;
since `Reachable` is closed under every operation, every operation preserves
this. -/
theorem xrecovery_c4_sorted_invariant {p : Params} {s : State}
    (h : Reachable p s) :
    (∀ a cfg, s.recoverable a = some cfg →
      cfg.friends.Pairwise (· < ·)) ∧
    (∀ a r ar, s.active a r = some ar →
      ar.friends.Pairwise (· < ·) ∧
      ∃ cfg, s.recoverable a = some cfg ∧ ar.friends ⊆ cfg.friends) := by
  obtain ⟨h1, h2, _⟩ := inv_of_reachable h
  exact ⟨h1, h2⟩

theorem chainS2_reachable : Reachable p0 chainS2 :=
  Reachable.step chainS1 chainS2
    (Reachable.step initState chainS1
      (Reachable.init initState emptyStores_initState)
      (Step.create initState 5 [1, 2, 3] 2 10 chainS1 rfl))
    (Step.initiate chainS1 9 5 chainS2 rfl)

theorem xrecovery_c4_witness :
    chainS2.recoverable 5 =
      some ⟨10, 13, [1, 2, 3], 2⟩ ∧
    List.Pairwise (· < ·) ([1, 2, 3] : List AccountId) := by
  refine ⟨rfl, ?_⟩
  exact (xrecovery_c4_sorted_invariant chainS2_reachable).1 5
    ⟨10, 13, [1, 2, 3], 2⟩ rfl

/-- C10: in every reachable state, an active attempt for (protected,
rescuer) implies that a config exists for the protected account. -/
theorem xrecovery_c10_attempt_implies_config {p : Params} {s : State}
    (h : Reachable p s) (a r : AccountId)
    (har : (s.active a r).isSome) : (s.recoverable a).isSome := by
  obtain ⟨_, hatt, _⟩ := inv_of_reachable h
  obtain ⟨ar', har'⟩ := Option.isSome_iff_exists.mp har
  obtain ⟨_, cfg, hcfg, _⟩ := hatt a r ar' har'
  simp [hcfg]

theorem xrecovery_c10_witness :
    (chainS2.active 5 9).isSome ∧ (chainS2.recoverable 5).isSome :=
  ⟨by decide,
    xrecovery_c10_attempt_implies_config chainS2_reachable 5 9 (by decide)⟩

/-- C1: with a config for the protected account, an active attempt for
(protected, caller), no existing proxy grant for the caller (and a
well-behaved identity boundary, whose registration failure the spec classes
as an internal invariant violation), `claim_recovery` succeeds exactly when
the voucher count reaches the threshold and the delay has elapsed; a failed
delay check alone yields `DelayPeriod`, a failed voucher check alone yields
the dedicated threshold error, and an overflowing deadline addition yields
`Overflow`. -/
theorem xrecovery_c1_claim_conditions (s : State) (who account : AccountId)
    (cfg : RecoveryConfig) (ar : ActiveRecovery)
    (hcfg : s.recoverable account = some cfg)
    (har : s.active account who = some ar)
    (hpx : s.proxy who = none)
    (hpr : s.providers who ≠ 0)
    (hblk : s.blockNumber ≤ blockMax) :
    ((∃ s', claim_recovery s who account = .ok s') ↔
      (cfg.threshold ≤ ar.friends.length ∧
        ar.created + cfg.delay_period ≤ s.blockNumber)) ∧
    (ar.created + cfg.delay_period ≤ blockMax →
      ¬ ar.created + cfg.delay_period ≤ s.blockNumber →
      claim_recovery s who account = .error .DelayPeriod) ∧
    (ar.created + cfg.delay_period ≤ s.blockNumber →
      ¬ cfg.threshold ≤ ar.friends.length →
      claim_recovery s who account = .error .Threshold) ∧
    (¬ ar.created + cfg.delay_period ≤ blockMax →
      claim_recovery s who account = .error .Overflow) := by
  have hpxs : ¬ (s.proxy who).isSome := by simp [hpx]
  refine ⟨⟨?_, ?_⟩, ?_, ?_, ?_⟩
  · rintro ⟨s', hs'⟩
    obtain ⟨cfg', ar', hc', ha', _, _, hdel, hth, _, _⟩ :=
      claim_recovery_ok hs'
    rw [hcfg] at hc'
    rw [har] at ha'
    obtain rfl : cfg = cfg' := Option.some_inj.mp hc'
    obtain rfl : ar = ar' := Option.some_inj.mp ha'
    exact ⟨hth, hdel⟩
  · rintro ⟨hth, hdel⟩
    have hov : ar.created + cfg.delay_period ≤ blockMax :=
      le_trans hdel hblk
    refine ⟨{ s with
      consumers := Function.update s.consumers who (s.consumers who + 1),
      proxy := Function.update s.proxy who (some account) }, ?_⟩
    simp [claim_recovery, hcfg, har, hpxs, checkedAddBlock, hov, hdel, hth,
      incConsumers, hpr]
  · intro hov hdelneg
    simp [claim_recovery, hcfg, har, hpxs, checkedAddBlock, hov, hdelneg]
  · intro hdel hthneg
    have hov : ar.created + cfg.delay_period ≤ blockMax :=
      le_trans hdel hblk
    simp [claim_recovery, hcfg, har, hpxs, checkedAddBlock, hov, hdel,
      hthneg]
  · intro hovneg
    simp [claim_recovery, hcfg, har, hpxs, checkedAddBlock, hovneg]

theorem xrecovery_c1_witness :
    ((∃ s', claim_recovery stA 9 0 = .ok s') ↔
      (cfgA.threshold ≤ arA.friends.length ∧
        arA.created + cfgA.delay_period ≤ stA.blockNumber)) ∧
    (arA.created + cfgA.delay_period ≤ blockMax →
      ¬ arA.created + cfgA.delay_period ≤ stA.blockNumber →
      claim_recovery stA 9 0 = .error .DelayPeriod) ∧
    (arA.created + cfgA.delay_period ≤ stA.blockNumber →
      ¬ cfgA.threshold ≤ arA.friends.length →
      claim_recovery stA 9 0 = .error .Threshold) ∧
    (¬ arA.created + cfgA.delay_period ≤ blockMax →
      claim_recovery stA 9 0 = .error .Overflow) :=
  xrecovery_c1_claim_conditions stA 9 0 cfgA arA rfl rfl rfl
    (by decide) (by decide)

/-- C5: `create_recovery` validates in the source order — existing config,
zero threshold, not enough friends (empty list or threshold above the list
length), too many friends, unsorted list — then computes the deposit with
overflow-checked arithmetic, reserves it, and stores a config with exactly
that deposit, those friends, that threshold and that delay period. -/
theorem xrecovery_c5_create_validation (p : Params) (s : State)
    (who : AccountId) (friends : List AccountId) (threshold delay : Nat) :
    ((s.recoverable who).isSome →
      create_recovery p s who friends threshold delay =
        .error .AlreadyRecoverable) ∧
    (s.recoverable who = none → threshold = 0 →
      create_recovery p s who friends threshold delay =
        .error .ZeroThreshold) ∧
    (s.recoverable who = none → 1 ≤ threshold →
      (friends = [] ∨ friends.length < threshold) →
      create_recovery p s who friends threshold delay =
        .error .NotEnoughFriends) ∧
    (s.recoverable who = none → 1 ≤ threshold → friends ≠ [] →
      threshold ≤ friends.length → p.maxFriends < friends.length →
      create_recovery p s who friends threshold delay =
        .error .MaxFriends) ∧
    (s.recoverable who = none → 1 ≤ threshold → friends ≠ [] →
      threshold ≤ friends.length → friends.length ≤ p.maxFriends →
      is_sorted_and_unique friends = false →
      create_recovery p s who friends threshold delay =
        .error .NotSorted) ∧
    (s.recoverable who = none → 1 ≤ threshold → friends ≠ [] →
      threshold ≤ friends.length → friends.length ≤ p.maxFriends →
      is_sorted_and_unique friends = true →
      balMax < p.configDepositBase + p.friendDepositFactor * friends.length →
      create_recovery p s who friends threshold delay =
        .error .Overflow) ∧
    (s.recoverable who = none → 1 ≤ threshold → friends ≠ [] →
      threshold ≤ friends.length → friends.length ≤ p.maxFriends →
      is_sorted_and_unique friends = true →
      p.configDepositBase + p.friendDepositFactor * friends.length ≤
        balMax →
      s.free who <
        p.configDepositBase + p.friendDepositFactor * friends.length →
      create_recovery p s who friends threshold delay =
        .error .InsufficientBalance) ∧
    (s.recoverable who = none → 1 ≤ threshold → friends ≠ [] →
      threshold ≤ friends.length → friends.length ≤ p.maxFriends →
      is_sorted_and_unique friends = true →
      p.configDepositBase + p.friendDepositFactor * friends.length ≤
        balMax →
      p.configDepositBase + p.friendDepositFactor * friends.length ≤
        s.free who →
      ∃ s', create_recovery p s who friends threshold delay = .ok s' ∧
        s'.recoverable who = some ⟨delay,
          p.configDepositBase + p.friendDepositFactor * friends.length,
          friends, threshold⟩ ∧
        s'.reserved who = s.reserved who +
          (p.configDepositBase + p.friendDepositFactor * friends.length) ∧
        s'.free who = s.free who -
          (p.configDepositBase + p.friendDepositFactor * friends.length)) := by
  refine ⟨?_, ?_, ?_, ?_, ?_, ?_, ?_, ?_⟩
  · intro h1
    simp [create_recovery, h1]
  · intro h1 h2
    simp [create_recovery, h1, h2]
  · intro h1 h2 h3
    rcases h3 with h3 | h3
    · subst h3
      simp [create_recovery, h1, h2]
    · by_cases hemp : friends.isEmpty
      · simp [create_recovery, h1, h2, hemp]
      · have hne : ¬ threshold ≤ friends.length := by omega
        simp [create_recovery, h1, h2, hne, hemp]
  · intro h1 h2 h3 h4 h5
    have hmf : ¬ friends.length ≤ p.maxFriends := by omega
    have hemp : ¬ friends.isEmpty = true := by
      intro hh; exact h3 (List.isEmpty_iff.mp hh)
    simp [create_recovery, h1, h2, h4, hmf, hemp]
  · intro h1 h2 h3 h4 h5 h6
    have hemp : ¬ friends.isEmpty = true := by
      intro hh; exact h3 (List.isEmpty_iff.mp hh)
    simp [create_recovery, h1, h2, h4, h5, h6, hemp]
  · intro h1 h2 h3 h4 h5 h6 h7
    have hemp : ¬ friends.isEmpty = true := by
      intro hh; exact h3 (List.isEmpty_iff.mp hh)
    by_cases hmul : p.friendDepositFactor * friends.length ≤ balMax
    · have hadd : ¬ p.configDepositBase +
          p.friendDepositFactor * friends.length ≤ balMax := by omega
      simp [create_recovery, checkedMulBal, checkedAddBal, h1, h2, h4, h5,
        h6, hemp, hmul, hadd]
    · simp [create_recovery, checkedMulBal, h1, h2, h4, h5, h6, hemp, hmul]
  · intro h1 h2 h3 h4 h5 h6 h7 h8
    have hemp : ¬ friends.isEmpty = true := by
      intro hh; exact h3 (List.isEmpty_iff.mp hh)
    have hmul : p.friendDepositFactor * friends.length ≤ balMax := by omega
    have hfree : ¬ p.configDepositBase +
        p.friendDepositFactor * friends.length ≤ s.free who := by omega
    simp [create_recovery, checkedMulBal, checkedAddBal, ledgerReserve,
      h1, h2, h4, h5, h6, hemp, hmul, h7, hfree]
  · intro h1 h2 h3 h4 h5 h6 h7 h8
    have hemp : ¬ friends.isEmpty = true := by
      intro hh; exact h3 (List.isEmpty_iff.mp hh)
    have hmul : p.friendDepositFactor * friends.length ≤ balMax := by omega
    refine ⟨{ s with
      recoverable := Function.update s.recoverable who
        (some ⟨delay,
          p.configDepositBase + p.friendDepositFactor * friends.length,
          friends, threshold⟩),
      free := Function.update s.free who
        (s.free who -
          (p.configDepositBase + p.friendDepositFactor * friends.length)),
      reserved := Function.update s.reserved who
        (s.reserved who +
          (p.configDepositBase + p.friendDepositFactor * friends.length)) },
      ?_, ?_, ?_, ?_⟩
    · simp [create_recovery, checkedMulBal, checkedAddBal, ledgerReserve,
        h1, h2, h4, h5, h6, hemp, hmul, h7, h8]
    · simp [Function.update_same]
    · simp [Function.update_same]
    · simp [Function.update_same]

theorem xrecovery_c5_witness :
    (initState.recoverable 5 = none → (2 : Nat) = 0 →
      create_recovery p0 initState 5 [1, 2, 3] 2 10 =
        .error .ZeroThreshold) ∧
    (initState.recoverable 5 = none → 1 ≤ 2 → ([1, 2, 3] : List Nat) ≠ [] →
      2 ≤ ([1, 2, 3] : List Nat).length →
      ([1, 2, 3] : List Nat).length ≤ p0.maxFriends →
      is_sorted_and_unique [1, 2, 3] = true →
      p0.configDepositBase + p0.friendDepositFactor *
        ([1, 2, 3] : List Nat).length ≤ balMax →
      p0.configDepositBase + p0.friendDepositFactor *
        ([1, 2, 3] : List Nat).length ≤ initState.free 5 →
      ∃ s', create_recovery p0 initState 5 [1, 2, 3] 2 10 = .ok s' ∧
        s'.recoverable 5 = some ⟨10,
          p0.configDepositBase + p0.friendDepositFactor *
            ([1, 2, 3] : List Nat).length, [1, 2, 3], 2⟩ ∧
        s'.reserved 5 = initState.reserved 5 +
          (p0.configDepositBase + p0.friendDepositFactor *
            ([1, 2, 3] : List Nat).length) ∧
        s'.free 5 = initState.free 5 -
          (p0.configDepositBase + p0.friendDepositFactor *
            ([1, 2, 3] : List Nat).length)) ∧
    (∃ s', create_recovery p0 initState 5 [1, 2, 3] 2 10 = .ok s') := by
  have h := xrecovery_c5_create_validation p0 initState 5 [1, 2, 3] 2 10
  refine ⟨h.2.1, h.2.2.2.2.2.2.2, ?_⟩
  obtain ⟨s', hs', _⟩ := h.2.2.2.2.2.2.2 rfl (by decide) (by decide)
    (by decide) (by decide) (by decide) (by decide) (by decide)
  exact ⟨s', hs'⟩

/-- C6: with an active attempt for (caller, rescuer) whose recorded deposit
is covered by the reserved balance of the rescuer (which the Ledger contract
guarantees by protocol construction), `close_recovery` removes exactly that
attempt and moves exactly the recorded deposit from the reserved balance of
the rescuer to the free balance of the caller, regardless of the voucher
count (so an attempt with zero vouchers closes the same way); with no such
attempt it fails with `NotStarted`. -/
theorem xrecovery_c6_close_recovery (s : State) (who rescuer : AccountId) :
    (∀ ar, s.active who rescuer = some ar →
      ar.deposit ≤ s.reserved rescuer →
      ∃ s', close_recovery s who rescuer = .ok s' ∧
        s'.active who rescuer = none ∧
        s'.free who = s.free who + ar.deposit ∧
        s'.reserved rescuer = s.reserved rescuer - ar.deposit ∧
        (∀ a r, ¬(a = who ∧ r = rescuer) → s'.active a r = s.active a r) ∧
        (∀ x, x ≠ who → s'.free x = s.free x) ∧
        (∀ x, x ≠ rescuer → s'.reserved x = s.reserved x) ∧
        s'.recoverable = s.recoverable ∧ s'.proxy = s.proxy) ∧
    (s.active who rescuer = none →
      close_recovery s who rescuer = .error .NotStarted) := by
  constructor
  · intro ar har hcov
    refine ⟨{ s with
      active := upd2 s.active who rescuer none,
      activeKeys := s.activeKeys.filter (fun k => k ≠ (who, rescuer)),
      reserved := Function.update s.reserved rescuer
        (s.reserved rescuer - min ar.deposit (s.reserved rescuer)),
      free := Function.update s.free who
        (s.free who + min ar.deposit (s.reserved rescuer)) },
      ?_, ?_, ?_, ?_, ?_, ?_, ?_, rfl, rfl⟩
    · simp [close_recovery, har, ledgerRepatriate]
    · simp [upd2]
    · simp [Function.update_same, Nat.min_eq_left hcov]
    · simp [Function.update_same, Nat.min_eq_left hcov]
    · intro a r hk
      exact upd2_ne _ _ _ _ _ _ hk
    · intro x hx
      exact Function.update_noteq hx _ _
    · intro x hx
      exact Function.update_noteq hx _ _
  · intro har
    simp [close_recovery, har]

theorem xrecovery_c6_witness :
    ∃ s', close_recovery stA 0 9 = .ok s' ∧
      s'.active 0 9 = none ∧
      s'.free 0 = stA.free 0 + arA.deposit ∧
      s'.reserved 9 = stA.reserved 9 - arA.deposit := by
  obtain ⟨s', h1, h2, h3, h4, _⟩ :=
    (xrecovery_c6_close_recovery stA 0 9).1 arA rfl (by decide)
  exact ⟨s', h1, h2, h3, h4⟩

/-- C2 counterexample: caller 9 holds a grant exactly to account 0 and the
inner dispatch fails, yet `as_recovered` still returns Ok — the source
discards the dispatch result, so the dispatcher error is not surfaced,
contrary to the claimed pass-through. -/
theorem xrecovery_c2_counterexample :
    stB.proxy 9 = some 0 ∧
    (as_recovered stB 9 0 (.error .BadState)).result = .ok () ∧
    (as_recovered_specModel stB 9 0 (.error .BadState)).result =
      .error .BadState ∧
    (as_recovered stB 9 0 (.error .BadState)).result ≠
      (as_recovered_specModel stB 9 0 (.error .BadState)).result := by
  refine ⟨rfl, rfl, rfl, ?_⟩
  intro hcontra
  simp [as_recovered, as_recovered_specModel, stB, stA] at hcontra

/-- C2 (amended): a caller whose grant equals the supplied account exactly
has the call dispatched under the protected identity, but the extrinsic
returns Ok regardless of the dispatcher result, which is discarded; a
caller with no grant, or a grant to a different account, gets `NotAllowed`
and no dispatch happens. -/
theorem xrecovery_c2_as_recovered (s : State) (who account : AccountId)
    (dres : Except Err Unit) :
    (s.proxy who = some account →
      as_recovered s who account dres = ⟨some account, .ok ()⟩) ∧
    (∀ target, s.proxy who = some target → target ≠ account →
      as_recovered s who account dres = ⟨none, .error .NotAllowed⟩) ∧
    (s.proxy who = none →
      as_recovered s who account dres = ⟨none, .error .NotAllowed⟩) := by
  refine ⟨?_, ?_, ?_⟩
  · intro h
    simp [as_recovered, h]
  · intro t h hne
    simp [as_recovered, h, hne]
  · intro h
    simp [as_recovered, h]

theorem xrecovery_c2_witness :
    as_recovered stB 9 0 (.error .BadState) = ⟨some 0, .ok ()⟩ ∧
    as_recovered stB 9 1 (.error .BadState) = ⟨none, .error .NotAllowed⟩ ∧
    as_recovered stA 9 0 (.error .BadState) = ⟨none, .error .NotAllowed⟩ :=
  ⟨(xrecovery_c2_as_recovered stB 9 0 (.error .BadState)).1 rfl,
   (xrecovery_c2_as_recovered stB 9 1 (.error .BadState)).2.1 0 rfl
     (by decide),
   (xrecovery_c2_as_recovered stA 9 0 (.error .BadState)).2.2 rfl⟩

/-- C3 counterexample: at the same input, the grant step of a successful
`claim_recovery` increments the consumer reference count of the rescuer,
while `set_recovered` leaves it untouched — so their effects are not
identical as the claim states. -/
theorem xrecovery_c3_counterexample :
    claim_recovery stA 9 0 = .ok claimedA ∧
    claimedA.proxy 9 = some 0 ∧
    (set_recovered stA 0 9).proxy 9 = some 0 ∧
    claimedA.consumers 9 = stA.consumers 9 + 1 ∧
    (set_recovered stA 0 9).consumers 9 = stA.consumers 9 :=
  ⟨rfl, rfl, rfl, rfl, rfl⟩

/-- C3 (amended): `set_recovered` creates the same ProxyGrant entry as the
grant step of `claim_recovery` and changes nothing else; but unlike
`claim_recovery` it performs no reference-count registration on the rescuer
(and validates neither an attempt nor the absence of an existing grant). -/
theorem xrecovery_c3_set_recovered (s : State) (lost rescuer : AccountId) :
    (set_recovered s lost rescuer).proxy =
      Function.update s.proxy rescuer (some lost) ∧
    (set_recovered s lost rescuer).consumers = s.consumers ∧
    (set_recovered s lost rescuer).recoverable = s.recoverable ∧
    (set_recovered s lost rescuer).active = s.active ∧
    (set_recovered s lost rescuer).free = s.free ∧
    (set_recovered s lost rescuer).reserved = s.reserved ∧
    (∀ s', claim_recovery s rescuer lost = .ok s' →
      s'.proxy = Function.update s.proxy rescuer (some lost) ∧
      s'.consumers = Function.update s.consumers rescuer
        (s.consumers rescuer + 1)) := by
  refine ⟨rfl, rfl, rfl, rfl, rfl, rfl, ?_⟩
  intro s' h
  obtain ⟨cfg, ar, _, _, _, _, _, _, _, hs'⟩ := claim_recovery_ok h
  subst hs'
  exact ⟨rfl, rfl⟩

theorem xrecovery_c3_witness :
    claimedA.proxy = Function.update stA.proxy 9 (some 0) ∧
    claimedA.consumers = Function.update stA.consumers 9
      (stA.consumers 9 + 1) :=
  (xrecovery_c3_set_recovered stA 0 9).2.2.2.2.2.2 claimedA rfl
